import Mathlib

/-!
Verification of the AI expense-tracker core services
(receipt parsing, categorization, anomaly detection, forecasting)
as implemented in src/services/ocrService.js.

Modelling conventions:
- JavaScript strings are modelled as Lean String / List Char.
- JavaScript numbers are modelled as exact rationals (the arithmetic in
  the claims involves only small decimal literals, sums, divisions and
  comparisons, where IEEE doubles and rationals agree on the stated facts).
- The two square roots appearing in the source (Math.sqrt for the standard
  deviation, hence the z-score) are kept in squared form so that all
  values stay rational: since Math.sqrt and squaring are monotone on
  nonnegatives, the comparison z > 2.5 is recorded as z^2 > 2.5^2,
  and Infinity / NaN outcomes of division by a zero standard deviation
  are represented explicitly by an inductive type.
- Database reads (the 90-day history query, the 12-month aggregation)
  are modelled by passing the fetched list directly as an argument.
-/

/-! ### Character classes mirroring the JavaScript regular expressions -/

/-- Digit class, the regex class backslash-d. -/
def isDigitCh (c : Char) : Bool := '0' ≤ c && c ≤ '9'

/-- Currency symbols accepted by the amount pattern in parseReceiptData. -/
def isCurrencyCh (c : Char) : Bool := c == '$' || c == '₹' || c == '€' || c == '£'

/-- Whitespace class, the regex class backslash-s restricted to its ASCII
members (receipt lines are ASCII text split on newlines). -/
def isSpaceCh (c : Char) : Bool :=
  c == ' ' || c == '\t' || c == '\n' || c == '\r' || c == '\x0b' || c == '\x0c'

/-- Date separator class, slash or hyphen. -/
def isSepCh (c : Char) : Bool := c == '/' || c == '-'

/-- Lowercasing a character sequence, the model of String.prototype.toLowerCase. -/
def lowerChars (l : List Char) : List Char := l.map Char.toLower

/-! ### Line splitting and trimming, the model of
text.split('\n').map(trim).filter(nonempty) -/

/-- Split a character list at every newline, keeping empty pieces,
as String.prototype.split with separator newline does. -/
def splitNlAux : List Char → List Char → List (List Char)
  | [], acc => [acc.reverse]
  | c :: t, acc =>
    if c == '\n' then acc.reverse :: splitNlAux t [] else splitNlAux t (c :: acc)

def splitNl (s : List Char) : List (List Char) := splitNlAux s []

/-- Trim whitespace from both ends, the model of String.prototype.trim. -/
def trimChars (l : List Char) : List Char :=
  ((l.dropWhile isSpaceCh).reverse.dropWhile isSpaceCh).reverse

/-- The non-empty trimmed lines of the raw text, as computed at the top of
parseReceiptData. -/
def jsLines (text : String) : List (List Char) :=
  ((splitNl text.data).map trimChars).filter (fun l => decide (0 < l.length))

/-! ### Merchant detection -/

/-- Substring containment, the model of String.prototype.includes. -/
def hasSubstr (needle : List Char) : List Char → Bool
  | [] => needle.isEmpty
  | c :: t => needle.isPrefixOf (c :: t) || hasSubstr needle t

/-- Business-type keywords scanned for in the first five lines. -/
def businessWords : List String :=
  ["restaurant", "cafe", "store", "shop", "market", "pharmacy", "gas", "station"]

/-- The merchant-line test from parseReceiptData: a known business word
occurs in the lowercased line, or the line length is strictly between
5 and 50 (the JavaScript source reads
businessWords.some(...) || line.length > 5 && line.length < 50). -/
def isMerchantLine (l : List Char) : Bool :=
  businessWords.any (fun w => hasSubstr w.data (lowerChars l)) ||
    (decide (5 < l.length) && decide (l.length < 50))

/-! ### Amount extraction: the global regex scan for
an optional currency symbol, optional whitespace, then a decimal number -/

/-- Match the tail part of the amount pattern (whitespace, then one or more
digits, then an optional dot with following digits) at the head of the
input; return the matched text and the remaining input. Greedy matching
with the usual backtracking collapses to this direct reading because a
failed digit requirement cannot be rescued by shrinking the whitespace run. -/
def matchNumTail (s : List Char) : Option (List Char × List Char) :=
  let ws := s.takeWhile isSpaceCh
  let r1 := s.dropWhile isSpaceCh
  let ds := r1.takeWhile isDigitCh
  let r2 := r1.dropWhile isDigitCh
  if ds.isEmpty then none
  else
    match r2 with
    | '.' :: t => some (ws ++ ds ++ '.' :: t.takeWhile isDigitCh, t.dropWhile isDigitCh)
    | _ => some (ws ++ ds, r2)

/-- Match the full amount pattern at the head of the input. When a currency
symbol is present but no digits follow, the engine backtracks to the
no-symbol branch, which then also fails on the symbol character, so the
whole position fails, as modelled here. -/
def matchAmountAt : List Char → Option (List Char × List Char)
  | [] => none
  | c :: t =>
    if isCurrencyCh c then
      match matchNumTail t with
      | some (m, r) => some (c :: m, r)
      | none => none
    else matchNumTail (c :: t)

/-- One step of the global scan: find the leftmost match, emit it, continue
after its end. The fuel is the input length; every successful match
consumes at least its one mandatory digit, so the fuel never runs out. -/
def scanAmountsFuel : Nat → List Char → List (List Char)
  | 0, _ => []
  | _ + 1, [] => []
  | fuel + 1, c :: t =>
    match matchAmountAt (c :: t) with
    | some (m, r) => m :: scanAmountsFuel fuel r
    | none => scanAmountsFuel fuel t

/-- All matches of the amount pattern in a line, the model of
line.match(amountPattern) with the global flag. -/
def scanAmounts (s : List Char) : List (List Char) := scanAmountsFuel s.length s

/-- Value of a digit character. -/
def digitVal (c : Char) : Nat := c.toNat - 48

/-- Accumulate a digit sequence into a natural number. -/
def digitsToNat (ds : List Char) : Nat := ds.foldl (fun n c => 10 * n + digitVal c) 0

/-- Model of parseFloat on the stripped match text, which always has the
shape digits, optionally followed by a dot and more digits (the match
always contains a digit, so the empty-input NaN case of parseFloat is
unreachable here). -/
def jsParseFloat (s : List Char) : ℚ :=
  let ds := s.takeWhile isDigitCh
  let r := s.dropWhile isDigitCh
  match r with
  | '.' :: t =>
      (digitsToNat ds : ℚ) +
        (digitsToNat (t.takeWhile isDigitCh) : ℚ) / (10 : ℚ) ^ (t.takeWhile isDigitCh).length
  | _ => (digitsToNat ds : ℚ)

/-- Numeric value of one regex match: strip every character that is not a
digit or a dot, then parse, as match.replace followed by parseFloat does. -/
def tokenValue (m : List Char) : ℚ :=
  jsParseFloat (m.filter (fun c => isDigitCh c || c == '.'))

/-- Model of the guarded Math.max spread: the amount stays 0 when the
collected list is empty, otherwise it is the maximum of the list. -/
def maxAmounts : List ℚ → ℚ
  | [] => 0
  | v :: vs => vs.foldl max v

/-- The numeric values of every amount-pattern match across all lines,
before the positivity filter of the source. -/
def allAmountTokenVals (text : String) : List ℚ :=
  (((jsLines text).map scanAmounts).flatten).map tokenValue

/-! ### Date extraction -/

/-- Match one or two digits followed by a separator, greedily preferring
two digits, at the head of the input. -/
def matchD12Sep (s : List Char) : Option (List Char × List Char) :=
  match s with
  | a :: b :: c :: t =>
    if isDigitCh a && isDigitCh b && isSepCh c then some ([a, b, c], t)
    else if isDigitCh a && isSepCh b then some ([a, b], c :: t)
    else none
  | [a, b] => if isDigitCh a && isSepCh b then some ([a, b], []) else none
  | _ => none

/-- Match two to four digits (greedy) at the head of the input. -/
def matchD24 (s : List Char) : Option (List Char × List Char) :=
  let ds := (s.take 4).takeWhile isDigitCh
  if 2 ≤ ds.length then some (ds, s.drop ds.length) else none

/-- Match one or two digits (greedy) at the head of the input. -/
def matchD12End (s : List Char) : Option (List Char × List Char) :=
  let ds := (s.take 2).takeWhile isDigitCh
  if 1 ≤ ds.length then some (ds, s.drop ds.length) else none

/-- First alternative of the date pattern: one or two digits, separator,
one or two digits, separator, two to four digits. -/
def matchDMY (s : List Char) : Option (List Char) :=
  match matchD12Sep s with
  | none => none
  | some (p1, r1) =>
    match matchD12Sep r1 with
    | none => none
    | some (p2, r2) =>
      match matchD24 r2 with
      | none => none
      | some (p3, _) => some (p1 ++ p2 ++ p3)

/-- Second alternative of the date pattern: exactly four digits, separator,
one or two digits, separator, one or two digits. -/
def matchYMD (s : List Char) : Option (List Char) :=
  match s with
  | a :: b :: c :: d :: e :: t =>
    if isDigitCh a && isDigitCh b && isDigitCh c && isDigitCh d && isSepCh e then
      match matchD12Sep t with
      | none => none
      | some (p2, r2) =>
        match matchD12End r2 with
        | none => none
        | some (p3, _) => some (a :: b :: c :: d :: e :: (p2 ++ p3))
    else none
  | _ => none

/-- The date pattern at one position: the first alternative is tried before
the second, as regex alternation does. -/
def matchDateAt (s : List Char) : Option (List Char) :=
  match matchDMY s with
  | some m => some m
  | none => matchYMD s

/-- Leftmost match of the date pattern in a line, the model of
line.match(datePattern) returning the matched text. -/
def findDateIn : List Char → Option (List Char)
  | [] => none
  | c :: t =>
    match matchDateAt (c :: t) with
    | some m => some m
    | none => findDateIn t

/-- The first date token over the lines in order, as the for-loop with
break in parseReceiptData computes. -/
def firstDateIn : List (List Char) → Option (List Char)
  | [] => none
  | l :: ls =>
    match findDateIn l with
    | some m => some m
    | none => firstDateIn ls

/-! ### Item filtering -/

/-- Keywords whose presence at the start of a line excludes it from the
item list. -/
def nonItemKeywords : List String :=
  ["total", "subtotal", "tax", "discount", "amount", "date", "time", "receipt", "thank", "you"]

/-- Case-insensitive anchored keyword test, the model of
line.match with the anchored alternation of non-item keywords. -/
def startsNonItem (l : List Char) : Bool :=
  nonItemKeywords.any (fun k => k.data.isPrefixOf (lowerChars l))

/-- Test for lines consisting solely of digits, whitespace, currency symbols
and dots. The regex demands at least one character; the lines reaching
this test are non-empty, so the all-quantifier over characters agrees. -/
def onlyNumericCurrency (l : List Char) : Bool :=
  l.all (fun c => isDigitCh c || isSpaceCh c || isCurrencyCh c || c == '.')

/-- The item-retention test of parseReceiptData, with the three skip
conditions and the final length guard exactly as in the source: skip on
keyword prefix, skip on numeric-only content, skip on length below 3,
then keep only lines of length strictly between 3 and 100. -/
def codeItemKeep (l : List Char) : Bool :=
  !startsNonItem l && !onlyNumericCurrency l &&
    !(decide (l.length < 3)) && (decide (3 < l.length) && decide (l.length < 100))

/-! ### The receipt parser -/

structure ParsedReceipt where
  merchant : String
  amount : ℚ
  date : String
  items : List String
  rawText : String
  deriving Repr, DecidableEq

/-- Model of OCRService.parseReceiptData. The extraction date (in the
source, the ISO day part of the current clock) is passed as the
parameter today. -/
def parseReceiptData (today : String) (text : String) : ParsedReceipt :=
  let lines := jsLines text
  let merchant := (((lines.take 5).find? isMerchantLine).getD [])
  let vals := (((lines.map scanAmounts).flatten).map tokenValue).filter (fun v => decide (0 < v))
  let amount := maxAmounts vals
  let dateTok := firstDateIn lines
  let items := (lines.filter codeItemKeep).take 10
  { merchant := if merchant.isEmpty then "Unknown Merchant" else String.mk merchant
    amount := amount
    date :=
      match dateTok with
      | some m => String.mk m
      | none => today
    items := items.map String.mk
    rawText := text }

/-! ### Anomaly detection, the model of AnomalyDetector.detectAnomalies.
The 90-day same-category history fetched from the database is passed as
the list of its transaction amounts, newest first as the query sorts it
(the statistics below do not depend on the order). -/

/-- The z-score of the source, recorded without taking the square root:
a finite value is carried as its square, and the two outcomes of dividing
by a zero standard deviation (Infinity when the numerator is nonzero,
NaN when it is zero) are explicit constructors. -/
inductive ZScoreVal where
  | finiteSq (q : ℚ)
  | posInf
  | nanVal
  deriving Repr, DecidableEq

/-- The comparison zScore greater than 2.5 of the source. For a finite
z-score the comparison is taken on squares, which agrees with the source
because squaring is strictly monotone on nonnegative reals; Infinity
exceeds 2.5 and any comparison with NaN is false. -/
def zExceeds : ZScoreVal → Bool
  | .finiteSq q => decide (25 / 4 < q)
  | .posInf => true
  | .nanVal => false

structure AnomalyStats where
  isAnomaly : Bool
  mean : ℚ
  variance : ℚ
  z : ZScoreVal
  deriving Repr, DecidableEq

/-- Result of detectAnomalies: the early return for fewer than five
transactions carries no zScore, mean or stdDev field. -/
inductive AnomalyResult where
  | insufficientData
  | scored (s : AnomalyStats)
  deriving Repr, DecidableEq

def isAnomalyOf : AnomalyResult → Bool
  | .insufficientData => false
  | .scored s => s.isAnomaly

def hasZScore : AnomalyResult → Bool
  | .insufficientData => false
  | .scored _ => true

/-- Sum by reduce with initial value 0, as in the source. -/
def jsSum (l : List ℚ) : ℚ := l.foldl (· + ·) 0

/-- Population mean of the history amounts. -/
def jsMean (l : List ℚ) : ℚ := jsSum l / l.length

/-- Population variance of the history amounts (the square of the stdDev
computed by Math.sqrt in the source). -/
def jsVariance (l : List ℚ) : ℚ :=
  (l.foldl (fun s v => s + (v - jsMean l) ^ 2) 0) / l.length

/-- Model of AnomalyDetector.detectAnomalies. -/
def detectAnomalies (history : List ℚ) (amount : ℚ) : AnomalyResult :=
  if history.length < 5 then .insufficientData
  else
    let mean := jsMean history
    let variance := jsVariance history
    let z : ZScoreVal :=
      if variance = 0 then (if amount = mean then .nanVal else .posInf)
      else .finiteSq ((amount - mean) ^ 2 / variance)
    .scored { isAnomaly := zExceeds z, mean := mean, variance := variance, z := z }

/-! ### Expense forecasting, the model of ExpenseForecaster.forecastExpenses.
The 12-month aggregation is passed as the sorted list of monthly buckets;
each bucket pairs a linear month index (twelve times the year plus the
zero-based month, the order the pipeline sorts by) with the monthly total. -/

structure ForecastPoint where
  month : ℤ
  predictedAmount : ℚ
  deriving Repr, DecidableEq

structure ForecastResult where
  forecast : List ForecastPoint
  confidence : String
  deriving Repr, DecidableEq

/-- Slope of the ordinary least-squares line of the monthly totals against
the indices 0, 1, ..., n-1, with the four reduce-computed sums of the
source. -/
def slopeOf (ys : List ℚ) : ℚ :=
  let n : ℚ := ys.length
  let xs : List ℚ := (List.range ys.length).map (fun (i : ℕ) => (i : ℚ))
  let sumX := xs.foldl (· + ·) 0
  let sumY := ys.foldl (· + ·) 0
  let sumXY := ((xs.zip ys).map (fun p => p.1 * p.2)).foldl (· + ·) 0
  let sumXX := (xs.map (fun v => v * v)).foldl (· + ·) 0
  (n * sumXY - sumX * sumY) / (n * sumXX - sumX * sumX)

/-- Intercept of the least-squares line. -/
def interceptOf (ys : List ℚ) : ℚ :=
  let n : ℚ := ys.length
  let xs : List ℚ := (List.range ys.length).map (fun (i : ℕ) => (i : ℚ))
  let sumX := xs.foldl (· + ·) 0
  let sumY := ys.foldl (· + ·) 0
  (sumY - slopeOf ys * sumX) / n

/-- Model of ExpenseForecaster.forecastExpenses. The forecast month
arithmetic setMonth of the source is the linear month index plus the
horizon step. -/
def forecastExpenses (buckets : List (ℤ × ℚ)) (months : Nat) : ForecastResult :=
  if buckets.length < 3 then { forecast := [], confidence := "low" }
  else
    let ys := buckets.map Prod.snd
    let n := buckets.length
    let slope := slopeOf ys
    let intercept := interceptOf ys
    let lastMonth : ℤ := ((buckets.getLast?).map Prod.fst).getD 0
    let forecast := (List.range months).map (fun (j : ℕ) =>
      { month := lastMonth + ((j : ℤ) + 1)
        predictedAmount := max 0 (slope * ((n : ℚ) + ((j : ℚ) + 1) - 1) + intercept)
        : ForecastPoint })
    { forecast := forecast
      confidence := if 6 ≤ n then "high" else if 3 ≤ n then "medium" else "low" }

/-! ### Categorization, the model of ExpenseCategorizer -/

/-- The fixed category-to-keyword table, in the iteration order of
Object.entries over the source literal. -/
def categoryKeywords : List (String × List String) :=
  [("food", ["restaurant", "cafe", "food", "dining", "lunch", "dinner", "breakfast", "coffee",
             "pizza", "burger", "sushi", "chinese", "indian", "mexican", "grocery",
             "supermarket", "market"]),
   ("transport", ["uber", "lyft", "taxi", "gas", "fuel", "parking", "metro", "bus", "train",
                  "flight", "airline", "car", "vehicle", "transportation"]),
   ("utilities", ["electric", "water", "gas", "internet", "phone", "cable", "utility", "bill",
                  "payment", "service"]),
   ("entertainment", ["movie", "cinema", "theater", "concert", "show", "game", "gaming",
                      "netflix", "spotify", "subscription", "entertainment", "fun"]),
   ("shopping", ["amazon", "store", "shop", "mall", "clothing", "clothes", "shoes",
                 "electronics", "book", "purchase", "buy"]),
   ("healthcare", ["doctor", "hospital", "clinic", "pharmacy", "medicine", "medical", "health",
                   "dental", "vision", "insurance"]),
   ("education", ["school", "university", "college", "course", "book", "education", "learning",
                  "tuition", "student"]),
   ("other", [])]

/-- Word-character class, the regex class backslash-w: ASCII letters,
digits and underscore. -/
def isWordCh (c : Char) : Bool :=
  ('a' ≤ c && c ≤ 'z') || ('A' ≤ c && c ≤ 'Z') || isDigitCh c || c == '_'

/-- Scanner for splitting on runs of non-word characters, the model of
String.prototype.split with the pattern of one or more non-word
characters: acc holds the reversed current piece and gap records whether
the scanner stands inside a separator run. A separator run ending the
input contributes a trailing empty piece, as the JavaScript split does. -/
def splitNWGo : List Char → List Char → Bool → List (List Char)
  | [], acc, false => [acc.reverse]
  | [], _, true => [[]]
  | c :: t, acc, false =>
    if isWordCh c then splitNWGo t (c :: acc) false
    else acc.reverse :: splitNWGo t [] true
  | c :: t, acc, true =>
    if isWordCh c then splitNWGo t [c] false else splitNWGo t acc true

/-- Split a character list on maximal runs of non-word characters. -/
def splitNW (s : List Char) : List (List Char) := splitNWGo s [] false

/-- The filtered word list of calculateTFIDF: lowercase, split on non-word
runs, keep only words longer than two characters. -/
def tfidfWords (text : List Char) : List (List Char) :=
  (splitNW (lowerChars text)).filter (fun w => decide (2 < w.length))

/-- Keyword list of a category, the model of the indexed table lookup with
an empty-list default. -/
def lookupKeywords (category : String) : List String :=
  (((categoryKeywords.find? (fun p => p.1 == category)).map Prod.snd).getD [])

/-- Model of ExpenseCategorizer.calculateTFIDF. The result none models the
JavaScript NaN produced by the division zero by zero when the word list
is empty; otherwise it is the keyword-overlap count over the word count. -/
def calculateTFIDF (text : List Char) (category : String) : Option ℚ :=
  let words := tfidfWords text
  let kws := lookupKeywords category
  let score : ℕ := (words.filter (fun w => kws.any (fun k => k.data == w))).length
  if words.length = 0 then none
  else some ((score : ℚ) / (words.length : ℚ))

/-- The three amount-based score bonuses of categorize. A NaN score (none)
absorbs the additions, as adding to NaN does in JavaScript. -/
def addBonus (category : String) (amount : ℚ) (score : Option ℚ) : Option ℚ :=
  let s1 := if category == "food" && decide (amount < 100) then score.map (· + 1 / 10) else score
  let s2 := if category == "transport" && decide (amount < 50) then s1.map (· + 1 / 10) else s1
  if category == "utilities" && decide (50 < amount) then s2.map (· + 1 / 10) else s2

/-- The lowercased concatenation of name and notes built at the top of
categorize. -/
def catText (expenseName notes : String) : List Char :=
  lowerChars (expenseName.data ++ ' ' :: notes.data)

/-- The best-category fold of categorize: iterate the table in order,
skip the category other, update on a strictly larger score; a NaN score
never updates because every comparison with NaN is false. -/
def bestOf (expenseName : String) (amount : ℚ) (notes : String) : String × ℚ :=
  let text := catText expenseName notes
  categoryKeywords.foldl
    (fun best p =>
      if p.1 == "other" then best
      else
        match addBonus p.1 amount (calculateTFIDF text p.1) with
        | none => best
        | some s => if best.2 < s then (p.1, s) else best)
    ("other", 0)

/-- The amount-band fallback of categorize, applied when the best score is
below one tenth. -/
def amountFallback (amount : ℚ) : String :=
  if amount < 20 then "food"
  else if amount < 100 then "shopping"
  else if amount < 500 then "utilities"
  else "other"

structure CategoryScore where
  category : String
  confidence : ℚ
  deriving Repr, DecidableEq

/-- Model of ExpenseCategorizer.categorize. -/
def categorize (expenseName : String) (amount : ℚ) (notes : String) : CategoryScore :=
  let best := bestOf expenseName amount notes
  { category := if best.2 < 1 / 10 then amountFallback amount else best.1
    confidence := min (best.2 * 2) 1 }

/-! ### Helper lemmas about folds -/

/-- Summing a constant list by foldl. -/
lemma foldl_add_const : ∀ (l : List ℚ) (v s : ℚ), (∀ x ∈ l, x = v) →
    l.foldl (· + ·) s = s + l.length * v
  | [], _, s, _ => by simp
  | a :: t, v, s, h => by
    have ha : a = v := h a (List.mem_cons_self a t)
    have ht : ∀ x ∈ t, x = v := fun x hx => h x (List.mem_cons_of_mem a hx)
    rw [List.foldl_cons, foldl_add_const t v (s + a) ht, ha]
    push_cast [List.length_cons]
    ring

/-- Summing squared deviations over a constant list gives back the seed. -/
lemma foldl_sqdev_const : ∀ (l : List ℚ) (v s : ℚ), (∀ x ∈ l, x = v) →
    l.foldl (fun a x => a + (x - v) ^ 2) s = s
  | [], _, _, _ => rfl
  | a :: t, v, s, h => by
    have ha : a = v := h a (List.mem_cons_self a t)
    have ht : ∀ x ∈ t, x = v := fun x hx => h x (List.mem_cons_of_mem a hx)
    rw [List.foldl_cons, show s + (a - v) ^ 2 = s by rw [ha]; ring]
    exact foldl_sqdev_const t v s ht

/-- Mean of a non-empty constant list. -/
lemma jsMean_const (l : List ℚ) (v : ℚ) (hne : l ≠ []) (h : ∀ x ∈ l, x = v) :
    jsMean l = v := by
  have hlen : (l.length : ℚ) ≠ 0 := by
    have := List.length_pos.mpr hne
    positivity
  rw [jsMean, jsSum, foldl_add_const l v 0 h]
  field_simp

/-- Variance of a non-empty constant list. -/
lemma jsVariance_const (l : List ℚ) (v : ℚ) (hne : l ≠ []) (h : ∀ x ∈ l, x = v) :
    jsVariance l = 0 := by
  have hm := jsMean_const l v hne h
  rw [jsVariance,
    show (fun s x => s + (x - jsMean l) ^ 2) = (fun s x => s + (x - v) ^ 2) by
      funext s x; rw [hm],
    foldl_sqdev_const l v 0 h]
  simp

/-- Claim C6: with fewer than five same-category transactions in the
90-day window the result is the early return with no zScore field, the
anomaly flag false, and no failure. -/
theorem detectAnomalies_insufficient (history : List ℚ) (amount : ℚ)
    (h : history.length < 5) :
    detectAnomalies history amount = .insufficientData ∧
    isAnomalyOf (detectAnomalies history amount) = false ∧
    hasZScore (detectAnomalies history amount) = false := by
  have he : detectAnomalies history amount = .insufficientData := by
    simp only [detectAnomalies, if_pos h]
  exact ⟨he, by rw [he]; rfl, by rw [he]; rfl⟩

theorem detectAnomalies_insufficient_witness :
    (([1, 2, 3] : List ℚ).length < 5) ∧
    (detectAnomalies [1, 2, 3] 100 = .insufficientData ∧
      isAnomalyOf (detectAnomalies [1, 2, 3] 100) = false ∧
      hasZScore (detectAnomalies [1, 2, 3] 100) = false) :=
  ⟨by decide, detectAnomalies_insufficient [1, 2, 3] 100 (by decide)⟩

/-- Claim C9: on a history of at least five equal amounts the variance
is zero and the anomaly flag is set exactly when the new amount differs
from the common value, via the Infinity and NaN branches of the
division; no failure in either case. -/
theorem detectAnomalies_constant_history (history : List ℚ) (v amount : ℚ)
    (h5 : 5 ≤ history.length) (hconst : ∀ x ∈ history, x = v) :
    detectAnomalies history amount =
      .scored ⟨decide (amount ≠ v), v, 0,
        if amount = v then .nanVal else .posInf⟩ ∧
    (isAnomalyOf (detectAnomalies history amount) = true ↔ amount ≠ v) := by
  have hne : history ≠ [] := by
    intro h0
    rw [h0] at h5
    simp at h5
  have hm := jsMean_const history v hne hconst
  have hv := jsVariance_const history v hne hconst
  have hnotlt : ¬ history.length < 5 := by omega
  have he : detectAnomalies history amount =
      .scored ⟨decide (amount ≠ v), v, 0,
        if amount = v then .nanVal else .posInf⟩ := by
    simp only [detectAnomalies, if_neg hnotlt, hm, hv, if_pos rfl]
    by_cases hav : amount = v
    · simp [hav, zExceeds]
    · simp [hav, zExceeds]
  refine ⟨he, ?_⟩
  rw [he]
  by_cases hav : amount = v
  · simp [isAnomalyOf, hav]
  · simp [isAnomalyOf, hav]

theorem detectAnomalies_constant_history_witness :
    (5 ≤ ([3, 3, 3, 3, 3] : List ℚ).length) ∧
    (detectAnomalies [3, 3, 3, 3, 3] 4 =
        .scored ⟨decide ((4 : ℚ) ≠ 3), 3, 0,
          if (4 : ℚ) = 3 then .nanVal else .posInf⟩ ∧
      (isAnomalyOf (detectAnomalies [3, 3, 3, 3, 3] 4) = true ↔ (4 : ℚ) ≠ 3)) :=
  ⟨by decide, detectAnomalies_constant_history [3, 3, 3, 3, 3] 3 4 (by decide) (by decide)⟩

/-- Claim C7: with fewer than three monthly buckets the forecast is
empty with confidence low, by the early return, and no failure. -/
theorem forecastExpenses_few_buckets (buckets : List (ℤ × ℚ)) (months : Nat)
    (h : buckets.length < 3) :
    forecastExpenses buckets months = { forecast := [], confidence := "low" } := by
  simp only [forecastExpenses, if_pos h]

theorem forecastExpenses_few_buckets_witness :
    (([((0 : ℤ), (5 : ℚ)), (1, 6)]).length < 3) ∧
    forecastExpenses [((0 : ℤ), (5 : ℚ)), (1, 6)] 3 = { forecast := [], confidence := "low" } :=
  ⟨by decide, forecastExpenses_few_buckets [((0 : ℤ), (5 : ℚ)), (1, 6)] 3 (by decide)⟩

/-! ### The concrete anomaly example -/

/-- Evaluation of detectAnomalies on the history 10, 12, 11, 13, 9 with
new amount 20: population mean 11, population variance 2, squared
z-score 81/2, anomalous. -/
lemma detect_example_eval :
    detectAnomalies [10, 12, 11, 13, 9] 20 =
      .scored ⟨true, 11, 2, .finiteSq (81 / 2)⟩ := by
  have hm : jsMean [10, 12, 11, 13, 9] = 11 := by
    norm_num [jsMean, jsSum, List.foldl]
  have hv : jsVariance [10, 12, 11, 13, 9] = 2 := by
    rw [jsVariance, hm]
    norm_num [List.foldl]
  have hz : ((20 : ℚ) - 11) ^ 2 / 2 = 81 / 2 := by norm_num
  have hlt : ¬ ([10, 12, 11, 13, 9] : List ℚ).length < 5 := by decide
  simp only [detectAnomalies, if_neg hlt, hm, hv, hz,
    if_neg (by norm_num : ¬ (2 : ℚ) = 0)]
  have hex : zExceeds (.finiteSq (81 / 2)) = true := by
    simp only [zExceeds, decide_eq_true_eq]
    norm_num
  rw [hex]

/-- Counterexample to claim C4: the code computes population statistics,
so the claimed standard deviation near 1.58 and z-score near 5.7 (the
sample statistics) are wrong; the actual variance is 2 (standard
deviation strictly below 1.55) and the squared z-score is 81/2 (z-score
strictly above 5.9). The anomaly flag itself is true as claimed. -/
theorem detectAnomalies_example_cex :
    detectAnomalies [10, 12, 11, 13, 9] 20 =
      .scored ⟨true, 11, 2, .finiteSq (81 / 2)⟩ ∧
    ((59 : ℚ) / 10) ^ 2 < 81 / 2 ∧ (2 : ℚ) < ((31 : ℚ) / 20) ^ 2 :=
  ⟨detect_example_eval, by norm_num, by norm_num⟩

/-- Claim C4 as amended: on history 10, 12, 11, 13, 9 with new amount
20 the mean is 11, the population variance is 2 (standard deviation the
square root of 2, between 1.41 and 1.42), the squared z-score is 81/2
(z-score between 6.3 and 6.4), and the anomaly flag is true. -/
theorem detectAnomalies_example_amended :
    detectAnomalies [10, 12, 11, 13, 9] 20 =
      .scored ⟨true, 11, 2, .finiteSq (81 / 2)⟩ ∧
    ((141 : ℚ) / 100) ^ 2 < 2 ∧ (2 : ℚ) < ((142 : ℚ) / 100) ^ 2 ∧
    ((63 : ℚ) / 10) ^ 2 < 81 / 2 ∧ (81 : ℚ) / 2 < ((64 : ℚ) / 10) ^ 2 :=
  ⟨detect_example_eval, by norm_num, by norm_num, by norm_num, by norm_num⟩

/-! ### Forecasting with six increasing monthly totals -/

/-- Slope of the fitted line on the counterexample totals
0, 1, 2, 3, 4, 104. -/
lemma slope_cex_eval : slopeOf [0, 1, 2, 3, 4, 104] = 106 / 7 := by
  have hr : List.range 6 = [0, 1, 2, 3, 4, 5] := rfl
  simp only [slopeOf, List.length_cons, List.length_nil]
  rw [hr]
  norm_num [List.foldl, List.zip, List.zipWith]

/-- Intercept of the fitted line on the counterexample totals. -/
lemma intercept_cex_eval : interceptOf [0, 1, 2, 3, 4, 104] = -(132 / 7) := by
  have hr : List.range 6 = [0, 1, 2, 3, 4, 5] := rfl
  simp only [interceptOf, List.length_cons, List.length_nil]
  rw [hr, slope_cex_eval]
  norm_num [List.foldl]

/-- Counterexample to claim C3: six strictly increasing monthly totals
where the next-month prediction of the fitted line, 72, lies below the
last observed total 104 (a steep early jump followed by a flat tail
drags the global trend line far under the final observation), while the
confidence is high as claimed. -/
theorem forecastExpenses_increasing_cex :
    ((0 : ℚ) < 1 ∧ (1 : ℚ) < 2 ∧ (2 : ℚ) < 3 ∧ (3 : ℚ) < 4 ∧ (4 : ℚ) < 104) ∧
    (forecastExpenses [(0, 0), (1, 1), (2, 2), (3, 3), (4, 4), (5, 104)] 3).confidence
      = "high" ∧
    ((forecastExpenses [(0, 0), (1, 1), (2, 2), (3, 3), (4, 4), (5, 104)] 3).forecast.head?.map
        ForecastPoint.predictedAmount) = some 72 ∧
    ¬ ((104 : ℚ) < 72) := by
  refine ⟨by norm_num, ?_, ?_, by norm_num⟩
  · simp only [forecastExpenses, List.length_cons, List.length_nil]
    norm_num
  · simp only [forecastExpenses, List.length_cons, List.length_nil]
    rw [if_neg (by norm_num)]
    simp only [List.map_cons, List.map_nil, slope_cex_eval, intercept_cex_eval]
    have hr : List.range 3 = [0, 1, 2] := rfl
    rw [hr]
    simp only [List.map_cons, List.map_nil, List.head?_cons]
    push_cast
    norm_num

/-- Claim C3 as amended: with six strictly increasing monthly totals the
confidence is high, the fitted slope is strictly positive, and the first
forecast point is the month after the last observed one; the predicted
amount itself need not exceed the last observed total. -/
theorem forecastExpenses_six_increasing (m0 m1 m2 m3 m4 m5 : ℤ)
    (y0 y1 y2 y3 y4 y5 : ℚ)
    (h01 : y0 < y1) (h12 : y1 < y2) (h23 : y2 < y3) (h34 : y3 < y4) (h45 : y4 < y5) :
    (forecastExpenses [(m0, y0), (m1, y1), (m2, y2), (m3, y3), (m4, y4), (m5, y5)] 3).confidence
      = "high" ∧
    0 < slopeOf [y0, y1, y2, y3, y4, y5] ∧
    ((forecastExpenses [(m0, y0), (m1, y1), (m2, y2), (m3, y3), (m4, y4), (m5, y5)] 3).forecast.head?.map
        ForecastPoint.month) = some (m5 + 1) := by
  refine ⟨?_, ?_, ?_⟩
  · simp only [forecastExpenses, List.length_cons, List.length_nil]
    norm_num
  · have hr : List.range 6 = [0, 1, 2, 3, 4, 5] := rfl
    simp only [slopeOf, List.length_cons, List.length_nil]
    rw [hr]
    simp only [List.map_cons, List.map_nil, List.zip_cons_cons, List.zip_nil_right,
      List.foldl_cons, List.foldl_nil]
    push_cast
    apply div_pos
    · ring_nf
      linarith
    · norm_num
  · simp only [forecastExpenses, List.length_cons, List.length_nil]
    rw [if_neg (by norm_num)]
    have hr : List.range 3 = [0, 1, 2] := rfl
    rw [hr]
    simp only [List.map_cons, List.map_nil, List.head?_cons, List.getLast?]
    push_cast
    norm_num

theorem forecastExpenses_six_increasing_witness :
    (forecastExpenses [((0 : ℤ), (0 : ℚ)), (1, 1), (2, 2), (3, 3), (4, 4), (5, 5)] 3).confidence
      = "high" ∧
    0 < slopeOf [(0 : ℚ), 1, 2, 3, 4, 5] ∧
    ((forecastExpenses [((0 : ℤ), (0 : ℚ)), (1, 1), (2, 2), (3, 3), (4, 4), (5, 5)] 3).forecast.head?.map
        ForecastPoint.month) = some ((5 : ℤ) + 1) :=
  forecastExpenses_six_increasing 0 1 2 3 4 5 0 1 2 3 4 5
    (by norm_num) (by norm_num) (by norm_num) (by norm_num) (by norm_num)

/-! ### Categorizer evaluations -/

/-- The word list of the example text xyz123 with empty notes. -/
lemma tfidf_words_xyz : tfidfWords (catText "xyz123" "") = ["xyz123".data] := by decide

/-- Keyword score of each scored category for the example text: no
keyword list contains xyz123, so every score is zero over the one-word
document. -/
lemma tfidf_xyz_eval (c : String) (hc : c ∈ ["food", "transport", "utilities",
    "entertainment", "shopping", "healthcare", "education"]) :
    calculateTFIDF (catText "xyz123" "") c = some 0 := by
  fin_cases hc <;>
  · simp only [calculateTFIDF]
    rw [if_neg (by decide)]
    norm_num
    decide

/-- The best-category fold on the example call: the keyword scores are
all zero, the food bonus for amounts below 100 lifts food to one tenth
first, and no later category exceeds it. -/
lemma bestOf_xyz_eval : bestOf "xyz123" 15 "" = ("food", 1 / 10) := by
  have hf := tfidf_xyz_eval "food" (by decide)
  have ht := tfidf_xyz_eval "transport" (by decide)
  have hu := tfidf_xyz_eval "utilities" (by decide)
  have he := tfidf_xyz_eval "entertainment" (by decide)
  have hs := tfidf_xyz_eval "shopping" (by decide)
  have hh := tfidf_xyz_eval "healthcare" (by decide)
  have hd := tfidf_xyz_eval "education" (by decide)
  simp only [bestOf, categoryKeywords, List.foldl_cons, List.foldl_nil,
    hf, ht, hu, he, hs, hh, hd, addBonus,
    (show (("food" : String) == "other") = false from by decide),
    (show (("food" : String) == "food" && decide ((15 : ℚ) < 100)) = true from by decide),
    (show (("food" : String) == "transport" && decide ((15 : ℚ) < 50)) = false from by decide),
    (show (("food" : String) == "utilities" && decide ((50 : ℚ) < 15)) = false from by decide),
    (show (("transport" : String) == "other") = false from by decide),
    (show (("transport" : String) == "food" && decide ((15 : ℚ) < 100)) = false from by decide),
    (show (("transport" : String) == "transport" && decide ((15 : ℚ) < 50)) = true from by decide),
    (show (("transport" : String) == "utilities" && decide ((50 : ℚ) < 15)) = false from by decide),
    (show (("utilities" : String) == "other") = false from by decide),
    (show (("utilities" : String) == "food" && decide ((15 : ℚ) < 100)) = false from by decide),
    (show (("utilities" : String) == "transport" && decide ((15 : ℚ) < 50)) = false from by decide),
    (show (("utilities" : String) == "utilities" && decide ((50 : ℚ) < 15)) = false from by decide),
    (show (("entertainment" : String) == "other") = false from by decide),
    (show (("entertainment" : String) == "food" && decide ((15 : ℚ) < 100)) = false from by decide),
    (show (("entertainment" : String) == "transport" && decide ((15 : ℚ) < 50)) = false from by decide),
    (show (("entertainment" : String) == "utilities" && decide ((50 : ℚ) < 15)) = false from by decide),
    (show (("shopping" : String) == "other") = false from by decide),
    (show (("shopping" : String) == "food" && decide ((15 : ℚ) < 100)) = false from by decide),
    (show (("shopping" : String) == "transport" && decide ((15 : ℚ) < 50)) = false from by decide),
    (show (("shopping" : String) == "utilities" && decide ((50 : ℚ) < 15)) = false from by decide),
    (show (("healthcare" : String) == "other") = false from by decide),
    (show (("healthcare" : String) == "food" && decide ((15 : ℚ) < 100)) = false from by decide),
    (show (("healthcare" : String) == "transport" && decide ((15 : ℚ) < 50)) = false from by decide),
    (show (("healthcare" : String) == "utilities" && decide ((50 : ℚ) < 15)) = false from by decide),
    (show (("education" : String) == "other") = false from by decide),
    (show (("education" : String) == "food" && decide ((15 : ℚ) < 100)) = false from by decide),
    (show (("education" : String) == "transport" && decide ((15 : ℚ) < 50)) = false from by decide),
    (show (("education" : String) == "utilities" && decide ((50 : ℚ) < 15)) = false from by decide),
    if_true, if_false, Bool.false_eq_true, Option.map_some]
  norm_num

/-- Counterexample to claim C8: the example call returns food, but not
through the amount-band fallback. The best score is exactly one tenth
(the food amount bonus on a zero keyword score), and the fallback
requires the best score to be strictly below one tenth, so it does not
apply. -/
theorem categorize_xyz_cex :
    (bestOf "xyz123" 15 "").2 = 1 / 10 ∧
    ¬ ((bestOf "xyz123" 15 "").2 < 1 / 10) ∧
    (categorize "xyz123" 15 "").category = "food" := by
  refine ⟨by rw [bestOf_xyz_eval], by rw [bestOf_xyz_eval]; norm_num, ?_⟩
  simp only [categorize, bestOf_xyz_eval]
  rw [if_neg (by norm_num)]

/-- Claim C8 as amended: categorize on xyz123 with amount 15 and empty
notes returns food with confidence one fifth, via the food amount bonus
for amounts below 100 rather than the amount-band fallback. -/
theorem categorize_xyz_amended :
    categorize "xyz123" 15 "" = ⟨"food", 1 / 5⟩ := by
  simp only [categorize, bestOf_xyz_eval]
  rw [if_neg (by norm_num)]
  norm_num

/-! ### Categorize with no scoring words -/

/-- When the word list is empty every keyword score is the NaN of zero
over zero, modelled by none. -/
lemma calculateTFIDF_no_words (text : List Char) (c : String)
    (h : tfidfWords text = []) : calculateTFIDF text c = none := by
  simp only [calculateTFIDF, h, List.length_nil]
  rfl

/-- The bonuses leave a NaN score untouched. -/
lemma addBonus_none (c : String) (amount : ℚ) : addBonus c amount none = none := by
  simp only [addBonus]
  split <;> split <;> split <;> simp

/-- Claim C10: with no word longer than two characters in the
concatenated text the categorizer still returns a result despite the
zero-denominator division: every score is the NaN modelled by none, no
category ever beats the initial pair, and the amount-band fallback with
confidence zero comes out. -/
theorem categorize_no_keywords (expenseName notes : String) (amount : ℚ)
    (h : tfidfWords (catText expenseName notes) = []) :
    categorize expenseName amount notes = ⟨amountFallback amount, 0⟩ := by
  have hb : bestOf expenseName amount notes = ("other", 0) := by
    simp only [bestOf, categoryKeywords, List.foldl_cons, List.foldl_nil,
      calculateTFIDF_no_words _ _ h, addBonus_none, ite_self]
  simp only [categorize, hb]
  rw [if_pos (by norm_num)]
  norm_num

theorem categorize_no_keywords_witness :
    tfidfWords (catText "" "") = [] ∧
    categorize "" 5 "" = ⟨amountFallback 5, 0⟩ :=
  ⟨by decide, categorize_no_keywords "" "" 5 (by decide)⟩

/-! ### The item filter of the receipt parser -/

/-- Modelled from the claim text of the specification: keep lines of
length 3 to 99 that survive the keyword and numeric filters. The source
disagrees on lines of length exactly 3. -/
def claimItemKeep (l : List Char) : Bool :=
  !startsNonItem l && !onlyNumericCurrency l &&
    decide (3 ≤ l.length) && decide (l.length ≤ 99)

/-- The amended characterization: keep lines of length 4 to 99 that
survive the keyword and numeric filters. -/
def specItemKeepAmended (l : List Char) : Bool :=
  !startsNonItem l && !onlyNumericCurrency l &&
    decide (4 ≤ l.length) && decide (l.length ≤ 99)

/-- The retention test of the source agrees with the amended length-4-to-99
characterization on every line. -/
lemma itemKeep_eq (l : List Char) : codeItemKeep l = specItemKeepAmended l := by
  simp only [codeItemKeep, specItemKeepAmended]
  cases startsNonItem l <;> cases onlyNumericCurrency l <;>
    simp only [Bool.not_false, Bool.not_true, Bool.true_and, Bool.false_and,
      Bool.and_false, Bool.and_true] <;>
    first
      | rfl
      | (rw [Bool.eq_iff_iff]
         simp only [Bool.and_eq_true, Bool.not_eq_true', decide_eq_true_eq,
           decide_eq_false_iff_not]
         omega)

lemma filter_itemKeep_eq (L : List (List Char)) :
    L.filter codeItemKeep = L.filter specItemKeepAmended := by
  induction L with
  | nil => rfl
  | cons l t ih => simp only [List.filter_cons, itemKeep_eq, ih]

/-- Claim C5 as amended: the items of a parsed receipt are exactly the
first ten lines that pass the keyword filter and the numeric filter and
have length between 4 and 99, in original order. -/
theorem parseReceiptData_items_spec (today text : String) :
    (parseReceiptData today text).items =
      (((jsLines text).filter specItemKeepAmended).take 10).map String.mk := by
  simp only [parseReceiptData]
  rw [filter_itemKeep_eq]

/-- Counterexample to claim C5: a single line of exactly three
characters passes every exclusion test of the claim, yet the source
drops it, because the final guard demands a length strictly greater
than 3. -/
theorem parseReceiptData_items_three_cex :
    claimItemKeep "xyz".data = true ∧ "xyz".data.length = 3 ∧
    (parseReceiptData "2024-01-01" "xyz").items = [] :=
  ⟨by decide, by decide, by decide⟩

/-! ### The amount as a maximum over all numeric tokens -/

/-- Maximum of a list of rationals with default 0, the formal reading of
the maximum over all tokens with fallback 0. -/
def maxOrZero (l : List ℚ) : ℚ := l.foldr max 0

lemma foldl_max_init_comm : ∀ (l : List ℚ) (v w : ℚ),
    List.foldl max (max v w) l = max v (List.foldl max w l)
  | [], _, _ => rfl
  | a :: t, v, w => by
    rw [List.foldl_cons, List.foldl_cons, max_assoc, foldl_max_init_comm t v (max w a)]

lemma le_foldl_max : ∀ (l : List ℚ) (v : ℚ), v ≤ List.foldl max v l
  | [], _ => le_refl _
  | a :: t, v => le_trans (le_max_left v a) (le_foldl_max t (max v a))

lemma foldr_max_nonneg : ∀ l : List ℚ, 0 ≤ List.foldr max 0 l
  | [] => le_refl 0
  | a :: t => le_trans (foldr_max_nonneg t) (le_max_right a _)

/-- The parse of a stripped token is nonnegative: an integer part plus a
nonnegative fraction. -/
lemma jsParseFloat_nonneg (s : List Char) : 0 ≤ jsParseFloat s := by
  simp only [jsParseFloat]
  split
  · positivity
  · positivity

lemma tokenValue_nonneg (m : List Char) : 0 ≤ tokenValue m :=
  jsParseFloat_nonneg _

/-- On nonnegative values, the source computation (keep the strictly
positive values, then take their maximum with fallback 0) agrees with the
plain maximum over all values with default 0. -/
lemma maxAmounts_filter_pos : ∀ l : List ℚ, (∀ x ∈ l, 0 ≤ x) →
    maxAmounts (l.filter (fun v => decide (0 < v))) = maxOrZero l
  | [], _ => rfl
  | a :: t, h => by
    have ha : 0 ≤ a := h a (List.mem_cons_self a t)
    have ht : ∀ x ∈ t, 0 ≤ x := fun x hx => h x (List.mem_cons_of_mem a hx)
    have ih := maxAmounts_filter_pos t ht
    simp only [maxOrZero, List.foldr_cons]
    by_cases hpos : 0 < a
    · have hf : (a :: t).filter (fun v => decide (0 < v)) =
          a :: t.filter (fun v => decide (0 < v)) := by
        simp [List.filter_cons, hpos]
      rw [hf]
      rcases hP : t.filter (fun v => decide (0 < v)) with _ | ⟨v, vs⟩
      · rw [hP] at ih
        have h0 : List.foldr max 0 t = 0 := by
          simpa [maxAmounts, maxOrZero] using ih.symm
        simp only [maxAmounts, List.foldl_nil, h0]
        exact (max_eq_left ha).symm
      · rw [hP] at ih
        have h1 : List.foldl max v vs = List.foldr max 0 t := by
          simpa [maxAmounts, maxOrZero] using ih
        simp only [maxAmounts, List.foldl_cons]
        rw [foldl_max_init_comm vs a v, h1]
    · have ha0 : a = 0 := le_antisymm (not_lt.mp hpos) ha
      have hf : (a :: t).filter (fun v => decide (0 < v)) =
          t.filter (fun v => decide (0 < v)) := by
        simp [List.filter_cons, hpos]
      rw [hf, ih, maxOrZero, ha0]
      exact (max_eq_right (foldr_max_nonneg t)).symm

/-- Claim C2: the parsed amount is the maximum over all numeric tokens
across all lines, 0 when there is none (the source keeps only strictly
positive token values before taking the maximum, which agrees because
every token value is nonnegative); on the two-line total and subtotal
example the amount is 45. -/
theorem parseReceiptData_amount_max (today text : String) :
    (parseReceiptData today text).amount = maxOrZero (allAmountTokenVals text) ∧
    (parseReceiptData today "Total $45.00\nSubtotal $40.00").amount = 45 := by
  constructor
  · simp only [parseReceiptData, allAmountTokenVals]
    apply maxAmounts_filter_pos
    intro x hx
    obtain ⟨m, -, rfl⟩ := List.mem_map.mp hx
    exact tokenValue_nonneg m
  · have h45 : tokenValue "$45.00".data = 45 := by
      have hf : ("$45.00".data.filter (fun c => isDigitCh c || c == '.')) = "45.00".data := by
        decide
      have h1 : "45.00".data.takeWhile isDigitCh = "45".data := by decide
      have h2 : "45.00".data.dropWhile isDigitCh = '.' :: "00".data := by decide
      have d1 : digitsToNat "45".data = 45 := by decide
      rw [tokenValue, hf, jsParseFloat, h1, h2, d1]
      norm_num [show digitsToNat (List.takeWhile isDigitCh ['0', '0']) = 0 from by decide,
        show (List.takeWhile isDigitCh ['0', '0']).length = 2 from by decide]
    have h40 : tokenValue "$40.00".data = 40 := by
      have hf : ("$40.00".data.filter (fun c => isDigitCh c || c == '.')) = "40.00".data := by
        decide
      have h1 : "40.00".data.takeWhile isDigitCh = "40".data := by decide
      have h2 : "40.00".data.dropWhile isDigitCh = '.' :: "00".data := by decide
      have d1 : digitsToNat "40".data = 40 := by decide
      rw [tokenValue, hf, jsParseFloat, h1, h2, d1]
      norm_num [show digitsToNat (List.takeWhile isDigitCh ['0', '0']) = 0 from by decide,
        show (List.takeWhile isDigitCh ['0', '0']).length = 2 from by decide]
    have hs : ((jsLines "Total $45.00\nSubtotal $40.00").map scanAmounts).flatten
        = ["$45.00".data, "$40.00".data] := by decide
    simp only [parseReceiptData, hs, List.map_cons, List.map_nil, h45, h40]
    have hflt : ([45, 40] : List ℚ).filter (fun v => decide (0 < v)) = [45, 40] := by
      norm_num [List.filter]
    rw [hflt]
    simp only [maxAmounts, List.foldl_cons, List.foldl_nil]
    exact max_eq_left (by norm_num)

/-! ### Totality of the receipt parser -/

lemma matchD12Sep_fst_ne {s p r : List Char} (h : matchD12Sep s = some (p, r)) :
    p ≠ [] := by
  rw [matchD12Sep.eq_def] at h
  split at h <;>
    first
      | exact Option.noConfusion h
      | (split_ifs at h <;>
          first
            | exact Option.noConfusion h
            | (rw [Option.some.injEq, Prod.mk.injEq] at h
               obtain ⟨hp, -⟩ := h
               rw [← hp]
               simp))

lemma matchDMY_ne {s m : List Char} (h : matchDMY s = some m) : m ≠ [] := by
  rw [matchDMY.eq_def] at h
  split at h
  · exact Option.noConfusion h
  next p1 r1 e1 =>
    split at h
    · exact Option.noConfusion h
    next p2 r2 e2 =>
      split at h
      · exact Option.noConfusion h
      next p3 r3 e3 =>
        have hm := Option.some.inj h
        intro hm0
        rw [← hm] at hm0
        rcases List.append_eq_nil.mp hm0 with ⟨h12, -⟩
        rcases List.append_eq_nil.mp h12 with ⟨hp1, -⟩
        exact matchD12Sep_fst_ne e1 hp1

lemma matchYMD_ne {s m : List Char} (h : matchYMD s = some m) : m ≠ [] := by
  rw [matchYMD.eq_def] at h
  split at h <;>
    first
      | exact Option.noConfusion h
      | (split_ifs at h
         split at h
         · exact Option.noConfusion h
         · split at h
           · exact Option.noConfusion h
           · have hm := Option.some.inj h
             intro h0
             rw [← hm] at h0
             exact List.noConfusion h0)

lemma matchDateAt_ne {s m : List Char} (h : matchDateAt s = some m) : m ≠ [] := by
  rw [matchDateAt.eq_def] at h
  split at h
  next e => exact Option.some.inj h ▸ matchDMY_ne e
  next e => exact matchYMD_ne h

lemma findDateIn_ne : ∀ (l m : List Char), findDateIn l = some m → m ≠ []
  | [], m, h => by simp [findDateIn] at h
  | c :: t, m, h => by
    simp only [findDateIn] at h
    split at h
    next e => exact Option.some.inj h ▸ matchDateAt_ne e
    next e => exact findDateIn_ne t m h

lemma firstDateIn_ne : ∀ (L : List (List Char)) (m : List Char),
    firstDateIn L = some m → m ≠ []
  | [], m, h => by simp [firstDateIn] at h
  | l :: ls, m, h => by
    simp only [firstDateIn] at h
    split at h
    next e => exact Option.some.inj h ▸ findDateIn_ne l _ e
    next e => exact firstDateIn_ne ls m h

lemma mk_ne_empty (l : List Char) (h : l ≠ []) : String.mk l ≠ "" := by
  intro he
  exact h (congrArg String.data he)

lemma maxAmounts_nonneg (l : List ℚ) (h : ∀ x ∈ l, 0 ≤ x) : 0 ≤ maxAmounts l := by
  rcases l with _ | ⟨v, vs⟩
  · exact le_refl 0
  · exact le_trans (h v (List.mem_cons_self v vs)) (le_foldl_max vs v)

/-- Claim C1, totality of parseReceiptData: for every raw text the
merchant is a non-empty string (Unknown Merchant when nothing matched),
the amount is nonnegative, the date is a non-empty string (a
date-pattern token from the text, or the supplied extraction date), at
most ten items are kept, and the empty text yields exactly the fallback
record; the function is total by construction. -/
theorem parseReceiptData_total (today text : String) (h : today ≠ "") :
    (parseReceiptData today text).merchant ≠ "" ∧
    0 ≤ (parseReceiptData today text).amount ∧
    (parseReceiptData today text).date ≠ "" ∧
    (parseReceiptData today text).items.length ≤ 10 ∧
    parseReceiptData today "" =
      { merchant := "Unknown Merchant", amount := 0, date := today, items := [],
        rawText := "" } := by
  refine ⟨?_, ?_, ?_, ?_, rfl⟩
  · simp only [parseReceiptData]
    rcases he : (((jsLines text).take 5).find? isMerchantLine).getD [] with _ | ⟨c, t⟩
    · simp [he]
    · simp only [he, List.isEmpty_cons, if_false, Bool.false_eq_true]
      exact mk_ne_empty (c :: t) (by simp)
  · simp only [parseReceiptData]
    apply maxAmounts_nonneg
    intro x hx
    exact le_of_lt (of_decide_eq_true (List.mem_filter.mp hx).2)
  · simp only [parseReceiptData]
    rcases hd : firstDateIn (jsLines text) with _ | m
    · exact h
    · exact mk_ne_empty m (firstDateIn_ne _ m hd)
  · simp only [parseReceiptData, List.length_map]
    exact List.length_take_le 10 _

theorem parseReceiptData_total_witness :
    ("2024-01-01" : String) ≠ "" ∧
    ((parseReceiptData "2024-01-01" "Total $45.00").merchant ≠ "" ∧
      0 ≤ (parseReceiptData "2024-01-01" "Total $45.00").amount ∧
      (parseReceiptData "2024-01-01" "Total $45.00").date ≠ "" ∧
      (parseReceiptData "2024-01-01" "Total $45.00").items.length ≤ 10 ∧
      parseReceiptData "2024-01-01" "" =
        { merchant := "Unknown Merchant", amount := 0, date := "2024-01-01", items := [],
          rawText := "" }) :=
  ⟨by decide, parseReceiptData_total "2024-01-01" "Total $45.00" (by decide)⟩
